import Mathlib

/-!
Verification of the IMAP COPY mutation engine of forwardemail.net
(src/helpers/imap/on-copy.js) against its natural-language specification.

The storage rows, the SQL statements issued by the handler, and the control
flow of the non-proxied path of `onCopy` are shallowly embedded below.
Machine-level details that the claims do not touch (wire framing, the
worker-pool proxy path, timers) are outside the model; the embedded state
is the per-account database: message rows, attachment rows, mailbox rows.
-/

namespace OnCopy

/-- MIME body tree of a stored message, used only to enumerate attachment
references.  A hash may occur several times in one tree (several in-body
occurrences of the same content-addressed blob). -/
inductive MimeTree where
  | leaf : MimeTree
  | attachment (hash : Nat) : MimeTree
  | node (l r : MimeTree) : MimeTree
deriving DecidableEq, Repr

/-- Modelled from the spec: the helper `#helpers/get-attachments` required by
on-copy.js is not part of the sources; per the spec the body tree is "used to
enumerate attachment references", so `getAttachments` collects the attachment
hashes occurring in a MIME tree (with multiplicity of occurrence). -/
def getAttachments : MimeTree → List Nat
  | MimeTree.leaf => []
  | MimeTree.attachment h => [h]
  | MimeTree.node l r => getAttachments l ++ getAttachments r

/-- A message row (table `Messages`).  Fields are the ones read or written by
on-copy.js; `_id` values are modelled as naturals. -/
structure Message where
  mid : Nat
  mailbox : Nat
  uid : Nat
  exp : Nat
  rdate : Int
  modseq : Nat
  junk : Bool
  remoteAddress : String
  transactionTag : String
  size : Nat
  magic : Int
  mimeTree : MimeTree
  copied : Bool
deriving DecidableEq, Repr

/-- An attachment row (table `Attachments`): content hash, reference counter,
aggregate magic value, last counter-update timestamp. -/
structure Attachment where
  hash : Nat
  counter : Int
  magic : Int
  counterUpdated : Int
deriving DecidableEq, Repr

/-- A mailbox row (table `Mailboxes`).  `retention` mirrors the JS field that
is either a number or absent (`typeof retention === "number"` tests). -/
structure Mailbox where
  mbid : Nat
  path : String
  uidNext : Nat
  uidValidity : Nat
  modifyIndex : Nat
  retention : Option Int
  specialUse : Option String
deriving DecidableEq, Repr

/-- The per-account storage state: the three tables touched by COPY. -/
structure DBState where
  messages : List Message
  attachments : List Attachment
  mailboxes : List Mailbox
deriving DecidableEq, Repr

/-- A notifier entry accumulated during the batch (on-copy.js lines 228-237). -/
structure Entry where
  command : String
  uid : Nat
  mailbox : Nat
  message : Nat
deriving DecidableEq, Repr

/-- Expiry flag of a copied row, translated from on-copy.js lines 170-176:
`(typeof retention === "number" ? retention !== 0 : false) ? 1 : 0`. -/
def expFlag (retention : Option Int) : Nat :=
  if (match retention with
      | some r => decide (r ≠ 0)
      | none => false) then 1 else 0

/-- Retention as a number, translated from on-copy.js lines 179-181:
`typeof retention === "number" ? retention : 0`. -/
def retentionOrZero (retention : Option Int) : Int :=
  match retention with
  | some r => r
  | none => 0

/-- In-place rewrite of a source row into the destination row, translated
from on-copy.js lines 161-186 (`m._id = ...` through `m.transaction = ...`). -/
def rewriteMessage (target source : Mailbox) (ra : String) (now : Int)
    (newId uidN : Nat) (m : Message) : Message :=
  { m with
    mid := newId
    mailbox := target.mbid
    uid := uidN
    exp := expFlag target.retention
    rdate := now + retentionOrZero target.retention
    modseq := source.modifyIndex
    junk := target.specialUse == some "\\Junk"
    remoteAddress := ra
    transactionTag := "COPY" }

/-- The `UPDATE Attachments ... WHERE hash IN attachmentIds` statement of
on-copy.js lines 198-220: each matching row gains `counter + 1`,
`magic + magicDelta` and a fresh timestamp; issued only when the id list is
non-empty. -/
def applyAttachmentUpdate (ids : List Nat) (magicDelta : Int) (now : Int)
    (atts : List Attachment) : List Attachment :=
  if ids.length > 0 then
    atts.map fun a =>
      if ids.contains a.hash then
        { a with
          counter := a.counter + 1
          magic := a.magic + magicDelta
          counterUpdated := now }
      else a
  else atts

/-- Loop state of the transactional batch: the result arrays built by
`unshift`/`push`, the counters, the running `uidNext`, the number of
`UPDATE Mailboxes` statements issued, and the storage state. -/
structure CopyAcc where
  sourceIds : List Nat
  sourceUid : List Nat
  destinationUid : List Nat
  entries : List Entry
  copiedMessages : Nat
  copiedStorage : Nat
  uidNext : Nat
  mailboxWrites : Nat
  db : DBState
deriving DecidableEq, Repr

/-- Initial loop state: empty arrays, zero counters, `uidNext` read from the
destination mailbox (on-copy.js line 147). -/
def initAcc (uidN : Nat) (db : DBState) : CopyAcc :=
  { sourceIds := []
    sourceUid := []
    destinationUid := []
    entries := []
    copiedMessages := 0
    copiedStorage := 0
    uidNext := uidN
    mailboxWrites := 0
    db := db }

/-- One iteration of the batch loop (on-copy.js lines 159-238): unshift the
source and destination UIDs, push the source id, insert the rewritten row,
update attachment counters, bump the counters, push the notifier entry. -/
def copyStep (target source : Mailbox) (ra : String) (now : Int) (newId : Nat)
    (m : Message) (acc : CopyAcc) : CopyAcc :=
  let m2 := rewriteMessage target source ra now newId acc.uidNext m
  { sourceIds := acc.sourceIds ++ [m.mid]
    sourceUid := m.uid :: acc.sourceUid
    destinationUid := acc.uidNext :: acc.destinationUid
    entries := acc.entries ++
      [{ command := "EXISTS"
         uid := m2.uid
         mailbox := target.mbid
         message := newId }]
    copiedMessages := acc.copiedMessages + 1
    copiedStorage := acc.copiedStorage + m.size
    uidNext := acc.uidNext + 1
    mailboxWrites := acc.mailboxWrites
    db := { messages := acc.db.messages ++ [m2]
            attachments := applyAttachmentUpdate (getAttachments m2.mimeTree)
              m2.magic now acc.db.attachments
            mailboxes := acc.db.mailboxes } }

/-- The batch loop without fault injection: processes the source rows in
order, the counter `i` feeding the fresh-id supply. -/
def copyLoop (target source : Mailbox) (ra : String) (now : Int)
    (freshId : Nat → Nat) : Nat → List Message → CopyAcc → CopyAcc
  | _, [], acc => acc
  | i, m :: ms, acc =>
      copyLoop target source ra now freshId (i + 1) ms
        (copyStep target source ra now (freshId i) m acc)

/-- The batch loop with fault injection: the step processing the row of
index `failAt` raises instead of running, modelling a storage error thrown
inside the transaction body. -/
def copyLoopE (target source : Mailbox) (ra : String) (now : Int)
    (freshId : Nat → Nat) (failAt : Option Nat) :
    Nat → List Message → CopyAcc → Except Unit CopyAcc
  | _, [], acc => Except.ok acc
  | i, m :: ms, acc =>
      if failAt = some i then Except.error ()
      else
        copyLoopE target source ra now freshId failAt (i + 1) ms
          (copyStep target source ra now (freshId i) m acc)

/-- The bulk `UPDATE Messages SET copied = true WHERE _id IN sourceIds`
statement of on-copy.js lines 240-257. -/
def markCopied (sourceIds : List Nat) (db : DBState) : DBState :=
  { db with
    messages := db.messages.map fun m =>
      if sourceIds.contains m.mid then { m with copied := true } else m }

/-- The single `UPDATE Mailboxes SET uidNext = ...` statement of on-copy.js
lines 259-274, storing the final counter on the destination mailbox. -/
def writeUidNext (mbid uidN : Nat) (db : DBState) : DBState :=
  { db with
    mailboxes := db.mailboxes.map fun b =>
      if b.mbid == mbid then { b with uidNext := uidN } else b }

/-- The transaction body (on-copy.js lines 158-275): the per-row loop, then
the bulk copied-marker update, then the single uidNext write.  Fault
injection: index `msgs.length` fails at the copied-marker statement, index
`msgs.length + 1` fails at the uidNext statement. -/
def copyBatchE (failAt : Option Nat) (target source : Mailbox) (ra : String)
    (now : Int) (freshId : Nat → Nat) (msgs : List Message) (db : DBState) :
    Except Unit CopyAcc :=
  match copyLoopE target source ra now freshId failAt 0 msgs
      (initAcc target.uidNext db) with
  | Except.error e => Except.error e
  | Except.ok acc =>
      if failAt = some msgs.length then Except.error ()
      else
        let db1 := markCopied acc.sourceIds acc.db
        if failAt = some (msgs.length + 1) then Except.error ()
        else
          Except.ok
            { acc with
              db := writeUidNext target.mbid acc.uidNext db1
              mailboxWrites := acc.mailboxWrites + 1 }

/-- The guarded transaction call of on-copy.js line 156: the transaction is
run only when the selected row set is non-empty; an empty selection is a
no-op success with empty arrays and zero counters. -/
def runCopyTx (failAt : Option Nat) (target source : Mailbox) (ra : String)
    (now : Int) (freshId : Nat → Nat) (msgs : List Message) (db : DBState) :
    Except Unit CopyAcc :=
  if msgs.length > 0 then copyBatchE failAt target source ra now freshId msgs db
  else Except.ok (initAcc target.uidNext db)

/-- The fault-free transaction call: same as `runCopyTx` with no fault
injected, packaged as a total function for the success-path lemmas. -/
def runCopyPure (target source : Mailbox) (ra : String) (now : Int)
    (freshId : Nat → Nat) (msgs : List Message) (db : DBState) : CopyAcc :=
  if msgs.length > 0 then
    let acc := copyLoop target source ra now freshId 0 msgs
      (initAcc target.uidNext db)
    { acc with
      db := writeUidNext target.mbid acc.uidNext (markCopied acc.sourceIds acc.db)
      mailboxWrites := acc.mailboxWrites + 1 }
  else initAcc target.uidNext db

/-- Sort order of the source query (`sort: "uid"`, on-copy.js line 144). -/
def uidLE (a b : Message) : Prop := a.uid ≤ b.uid

instance : DecidableRel uidLE := fun a b => Nat.decLe a.uid b.uid

instance : IsTotal Message uidLE := ⟨fun a b => Nat.le_total a.uid b.uid⟩

instance : IsTrans Message uidLE := ⟨fun _ _ _ => Nat.le_trans⟩

/-- Modelled from the spec: `tools.checkRangeQuery` comes from the external
wildduck library; the spec describes the condition as the protocol-supplied
UID-range filter, so it is modelled as membership of the UID in the supplied
set.  Claims only depend on the case where no filter is applied at all. -/
def checkRangeQuery (uids : List Nat) (u : Nat) : Bool := uids.contains u

/-- The WHERE clause of the source query (on-copy.js lines 131-137): rows of
the source mailbox, with the UID condition added only when the
protocol-supplied message list is non-empty. -/
def messageMatches (mailboxId : Nat) (filter : List Nat) (m : Message) : Bool :=
  m.mailbox == mailboxId && (filter.length == 0 || checkRangeQuery filter m.uid)

/-- The source query of on-copy.js lines 139-154: select the matching rows
sorted by ascending source UID. -/
def selectMessages (db : DBState) (mailboxId : Nat) (filter : List Nat) :
    List Message :=
  List.insertionSort uidLE (db.messages.filter (messageMatches mailboxId filter))

/-- `Mailboxes.findOne` by `_id` (on-copy.js lines 104-106). -/
def findMailboxById (db : DBState) (mailboxId : Nat) : Option Mailbox :=
  db.mailboxes.find? fun b => b.mbid == mailboxId

/-- `Mailboxes.findOne` by `path` (on-copy.js lines 116-118). -/
def findMailboxByPath (db : DBState) (path : String) : Option Mailbox :=
  db.mailboxes.find? fun b => b.path == path

/-- Protocol-level failure kinds of the COPY handler, one per `imapResponse`
raised by on-copy.js (plus the generic storage failure re-raised at line
290). -/
inductive CopyError where
  | overQuota
  | nonexistent
  | tryCreate
  | lockFailed
  | batchError
deriving DecidableEq, Repr

/-- The success payload returned at on-copy.js lines 374-378. -/
structure CopyResponse where
  uidValidity : Nat
  sourceUid : List Nat
  destinationUid : List Nat
deriving DecidableEq, Repr

/-- Observable side effects of one invocation, in program order. -/
inductive OEvent where
  | lockAcquire
  | rowsRead
  | lockRelease
  | logFatal
deriving DecidableEq, Repr

/-- Outcome of one COPY invocation: protocol result, effect trace, final
storage state, and the counters relevant to the claims. -/
structure CopyOutcome where
  result : Except CopyError CopyResponse
  events : List OEvent
  db : DBState
  copiedMessages : Nat
  mailboxWrites : Nat
deriving Repr

/-- The non-proxied path of `onCopy` (on-copy.js lines 73-381): pre-flight
quota check, source and destination mailbox resolution, lock acquisition,
source query, guarded transaction, unconditional release attempt on the
acquired lock (release failure logged fatally, never raised), re-raise of a
batch error after the release, success payload otherwise.  Oracles:
`isOverQuota` is the pre-flight quota verdict, `acquireOk` is whether
`acquireLock` succeeds, `releaseFails` is whether `releaseLock` throws,
`failAt` injects a storage fault into the transaction body. -/
def onCopyModel (isOverQuota acquireOk releaseFails : Bool)
    (failAt : Option Nat) (now : Int) (ra : String) (freshId : Nat → Nat)
    (mailboxId : Nat) (destinationPath : String) (filter : List Nat)
    (db : DBState) : CopyOutcome :=
  if isOverQuota then
    { result := Except.error CopyError.overQuota
      events := []
      db := db
      copiedMessages := 0
      mailboxWrites := 0 }
  else
    match findMailboxById db mailboxId with
    | none =>
        { result := Except.error CopyError.nonexistent
          events := []
          db := db
          copiedMessages := 0
          mailboxWrites := 0 }
    | some mailbox =>
        match findMailboxByPath db destinationPath with
        | none =>
            { result := Except.error CopyError.tryCreate
              events := []
              db := db
              copiedMessages := 0
              mailboxWrites := 0 }
        | some target =>
            if acquireOk then
              let msgs := selectMessages db mailbox.mbid filter
              let evs := [OEvent.lockAcquire, OEvent.rowsRead,
                  OEvent.lockRelease] ++
                (if releaseFails then [OEvent.logFatal] else [])
              match runCopyTx failAt target mailbox ra now freshId msgs db with
              | Except.error _ =>
                  { result := Except.error CopyError.batchError
                    events := evs
                    db := db
                    copiedMessages := 0
                    mailboxWrites := 0 }
              | Except.ok c =>
                  { result := Except.ok
                      { uidValidity := target.uidValidity
                        sourceUid := c.sourceUid
                        destinationUid := c.destinationUid }
                    events := evs
                    db := c.db
                    copiedMessages := c.copiedMessages
                    mailboxWrites := c.mailboxWrites }
            else
              { result := Except.error CopyError.lockFailed
                events := [OEvent.lockAcquire]
                db := db
                copiedMessages := 0
                mailboxWrites := 0 }

/-- Specification-side characterization of the rows inserted by the batch
loop: the k-th selected row, rewritten with the k-th fresh id and the k-th
allocated destination UID. -/
def insertedRows (target source : Mailbox) (ra : String) (now : Int)
    (freshId : Nat → Nat) : Nat → Nat → List Message → List Message
  | _, _, [] => []
  | i, u, m :: ms =>
      rewriteMessage target source ra now (freshId i) u m ::
        insertedRows target source ra now freshId (i + 1) (u + 1) ms

/-- Number of copied rows whose body tree references a given hash (each
referencing row counted once, regardless of in-body occurrences). -/
def refCount (h : Nat) (msgs : List Message) : Nat :=
  (msgs.filter fun m => (getAttachments m.mimeTree).contains h).length

/-- Total magic contribution of the copied rows referencing a given hash. -/
def magicSum (h : Nat) (msgs : List Message) : Int :=
  (msgs.filter fun m => (getAttachments m.mimeTree).contains h).foldr
    (fun m s => m.magic + s) 0

/-- Specification-side characterization of one attachment row after the
whole batch: counter bumped once per referencing copied row, magic bumped by
the total contribution, timestamp refreshed when any row referenced it. -/
def attachmentAfter (msgs : List Message) (now : Int) (a : Attachment) :
    Attachment :=
  if 0 < refCount a.hash msgs then
    { a with
      counter := a.counter + (refCount a.hash msgs : Int)
      magic := a.magic + magicSum a.hash msgs
      counterUpdated := now }
  else a

/-- A source message row with the given identity, mailbox, uid, size, magic
and body tree; remaining fields at their defaults. -/
def mkMsg (mid mb uid size : Nat) (mg : Int) (t : MimeTree) : Message :=
  { mid := mid
    mailbox := mb
    uid := uid
    exp := 0
    rdate := 0
    modseq := 0
    junk := false
    remoteAddress := ""
    transactionTag := ""
    size := size
    magic := mg
    mimeTree := t
    copied := false }

/-- Concrete account state for the witnesses: source mailbox `A` (id 1)
holding rows with UIDs 5, 7, 9 (the UID-5 row referencing attachment 42
twice, the UID-9 row once), destination mailbox `B` (id 2) with
`uidNext = 100`. -/
def dbWitness : DBState :=
  { messages := [
      mkMsg 11 1 7 10 2 MimeTree.leaf,
      mkMsg 10 1 5 10 1
        (MimeTree.node (MimeTree.attachment 42) (MimeTree.attachment 42)),
      mkMsg 12 1 9 10 3 (MimeTree.attachment 42)]
    attachments := [{ hash := 42, counter := 5, magic := 100, counterUpdated := 0 }]
    mailboxes := [
      { mbid := 1, path := "A", uidNext := 10, uidValidity := 5,
        modifyIndex := 3, retention := none, specialUse := none },
      { mbid := 2, path := "B", uidNext := 100, uidValidity := 77,
        modifyIndex := 4, retention := none, specialUse := none }] }

/-- Concrete account state whose destination mailbox has the negative
retention value -1: one source row in mailbox `A`, destination `B`. -/
def dbNegRetention : DBState :=
  { messages := [mkMsg 10 1 5 10 1 MimeTree.leaf]
    attachments := []
    mailboxes := [
      { mbid := 1, path := "A", uidNext := 10, uidValidity := 5,
        modifyIndex := 3, retention := none, specialUse := none },
      { mbid := 2, path := "B", uidNext := 100, uidValidity := 77,
        modifyIndex := 4, retention := some (-1), specialUse := none }] }

/-- Concrete account state whose destination mailbox has the positive
retention value 86400: one source row in mailbox `A`, destination `B`. -/
def dbPosRetention : DBState :=
  { messages := [mkMsg 10 1 5 10 1 MimeTree.leaf]
    attachments := []
    mailboxes := [
      { mbid := 1, path := "A", uidNext := 10, uidValidity := 5,
        modifyIndex := 3, retention := none, specialUse := none },
      { mbid := 2, path := "B", uidNext := 100, uidValidity := 77,
        modifyIndex := 4, retention := some 86400, specialUse := none }] }

/-- Concrete account state with no mailbox rows at all (both lookups miss). -/
def dbEmpty : DBState :=
  { messages := [], attachments := [], mailboxes := [] }

/-- Concrete account state holding only the source mailbox `A`, so the
destination path `B` misses. -/
def dbOnlySource : DBState :=
  { messages := []
    attachments := []
    mailboxes := [
      { mbid := 1, path := "A", uidNext := 10, uidValidity := 5,
        modifyIndex := 3, retention := none, specialUse := none }] }

/-- The source mailbox row of the witness states. -/
def mbA : Mailbox :=
  { mbid := 1, path := "A", uidNext := 10, uidValidity := 5,
    modifyIndex := 3, retention := none, specialUse := none }

/-- The destination mailbox row of `dbWitness`. -/
def mbB : Mailbox :=
  { mbid := 2, path := "B", uidNext := 100, uidValidity := 77,
    modifyIndex := 4, retention := none, specialUse := none }

/-- The destination mailbox row of `dbNegRetention`. -/
def mbBneg : Mailbox :=
  { mbid := 2, path := "B", uidNext := 100, uidValidity := 77,
    modifyIndex := 4, retention := some (-1), specialUse := none }

/-- The destination mailbox row of `dbPosRetention`. -/
def mbBpos : Mailbox :=
  { mbid := 2, path := "B", uidNext := 100, uidValidity := 77,
    modifyIndex := 4, retention := some 86400, specialUse := none }

/-! Characterization lemmas for the batch loop. -/

theorem copyLoopE_none (target source : Mailbox) (ra : String) (now : Int)
    (freshId : Nat → Nat) (msgs : List Message) :
    ∀ (i : Nat) (acc : CopyAcc),
      copyLoopE target source ra now freshId none i msgs acc =
        Except.ok (copyLoop target source ra now freshId i msgs acc) := by
  induction msgs with
  | nil => intro i acc; rfl
  | cons m ms ih => intro i acc; simp [copyLoopE, copyLoop, ih]

theorem copyLoop_sourceUid (target source : Mailbox) (ra : String) (now : Int)
    (freshId : Nat → Nat) (msgs : List Message) :
    ∀ (i : Nat) (acc : CopyAcc),
      (copyLoop target source ra now freshId i msgs acc).sourceUid =
        (msgs.map fun m => m.uid).reverse ++ acc.sourceUid := by
  induction msgs with
  | nil => intro i acc; simp [copyLoop]
  | cons m ms ih => intro i acc; simp [copyLoop, ih, copyStep]

theorem copyLoop_uidNext (target source : Mailbox) (ra : String) (now : Int)
    (freshId : Nat → Nat) (msgs : List Message) :
    ∀ (i : Nat) (acc : CopyAcc),
      (copyLoop target source ra now freshId i msgs acc).uidNext =
        acc.uidNext + msgs.length := by
  induction msgs with
  | nil => intro i acc; simp [copyLoop]
  | cons m ms ih => intro i acc; simp [copyLoop, ih, copyStep]; omega

theorem copyLoop_destinationUid (target source : Mailbox) (ra : String)
    (now : Int) (freshId : Nat → Nat) (msgs : List Message) :
    ∀ (i : Nat) (acc : CopyAcc),
      (copyLoop target source ra now freshId i msgs acc).destinationUid =
        (List.range' acc.uidNext msgs.length).reverse ++ acc.destinationUid := by
  induction msgs with
  | nil => intro i acc; simp [copyLoop]
  | cons m ms ih =>
      intro i acc
      simp [copyLoop, ih, copyStep, List.range'_succ]

theorem copyLoop_copiedMessages (target source : Mailbox) (ra : String)
    (now : Int) (freshId : Nat → Nat) (msgs : List Message) :
    ∀ (i : Nat) (acc : CopyAcc),
      (copyLoop target source ra now freshId i msgs acc).copiedMessages =
        acc.copiedMessages + msgs.length := by
  induction msgs with
  | nil => intro i acc; simp [copyLoop]
  | cons m ms ih => intro i acc; simp [copyLoop, ih, copyStep]; omega

theorem copyLoop_mailboxWrites (target source : Mailbox) (ra : String)
    (now : Int) (freshId : Nat → Nat) (msgs : List Message) :
    ∀ (i : Nat) (acc : CopyAcc),
      (copyLoop target source ra now freshId i msgs acc).mailboxWrites =
        acc.mailboxWrites := by
  induction msgs with
  | nil => intro i acc; simp [copyLoop]
  | cons m ms ih => intro i acc; simp [copyLoop, ih, copyStep]

theorem copyLoop_sourceIds (target source : Mailbox) (ra : String) (now : Int)
    (freshId : Nat → Nat) (msgs : List Message) :
    ∀ (i : Nat) (acc : CopyAcc),
      (copyLoop target source ra now freshId i msgs acc).sourceIds =
        acc.sourceIds ++ (msgs.map fun m => m.mid) := by
  induction msgs with
  | nil => intro i acc; simp [copyLoop]
  | cons m ms ih => intro i acc; simp [copyLoop, ih, copyStep]

theorem copyLoop_messages (target source : Mailbox) (ra : String) (now : Int)
    (freshId : Nat → Nat) (msgs : List Message) :
    ∀ (i : Nat) (acc : CopyAcc),
      (copyLoop target source ra now freshId i msgs acc).db.messages =
        acc.db.messages ++
          insertedRows target source ra now freshId i acc.uidNext msgs := by
  induction msgs with
  | nil => intro i acc; simp [copyLoop, insertedRows]
  | cons m ms ih => intro i acc; simp [copyLoop, ih, copyStep, insertedRows]

theorem copyLoop_mailboxes (target source : Mailbox) (ra : String) (now : Int)
    (freshId : Nat → Nat) (msgs : List Message) :
    ∀ (i : Nat) (acc : CopyAcc),
      (copyLoop target source ra now freshId i msgs acc).db.mailboxes =
        acc.db.mailboxes := by
  induction msgs with
  | nil => intro i acc; simp [copyLoop]
  | cons m ms ih => intro i acc; simp [copyLoop, ih, copyStep]

/-! Attachment-counter characterization. -/

theorem attachmentAfter_nil_fun (now : Int) :
    attachmentAfter [] now = id := by
  funext a
  simp [attachmentAfter, refCount]

theorem magicSum_eq_zero {h : Nat} {ms : List Message}
    (hz : refCount h ms = 0) : magicSum h ms = 0 := by
  unfold refCount at hz
  unfold magicSum
  rw [List.length_eq_zero.mp hz]
  rfl

theorem applyAttachmentUpdate_eq_map (ids : List Nat) (d now : Int)
    (atts : List Attachment) :
    applyAttachmentUpdate ids d now atts =
      atts.map fun a =>
        if ids.contains a.hash then
          { a with
            counter := a.counter + 1
            magic := a.magic + d
            counterUpdated := now }
        else a := by
  unfold applyAttachmentUpdate
  by_cases hl : ids.length > 0
  · simp [hl]
  · have : ids = [] := by
      cases ids with
      | nil => rfl
      | cons x xs => simp at hl
    subst this
    simp

theorem attachmentAfter_cons_point (m : Message) (ms : List Message)
    (now : Int) (a : Attachment) :
    attachmentAfter ms now
      (if (getAttachments m.mimeTree).contains a.hash then
        { a with
          counter := a.counter + 1
          magic := a.magic + m.magic
          counterUpdated := now }
      else a) = attachmentAfter (m :: ms) now a := by
  by_cases hc : (getAttachments m.mimeTree).contains a.hash
  · have hmem : a.hash ∈ getAttachments m.mimeTree := by simpa using hc
    have hrc : refCount a.hash (m :: ms) = refCount a.hash ms + 1 := by
      simp [refCount, List.filter_cons, hmem]
    have hms : magicSum a.hash (m :: ms) = m.magic + magicSum a.hash ms := by
      simp [magicSum, List.filter_cons, hmem]
    rw [if_pos hc]
    by_cases hz : 0 < refCount a.hash ms
    · simp only [attachmentAfter, hrc, hms]
      rw [if_pos hz, if_pos (by omega)]
      congr 1
      all_goals omega
    · have hz0 : refCount a.hash ms = 0 := by omega
      simp only [attachmentAfter, hrc, hms, hz0, magicSum_eq_zero hz0]
      rw [if_neg (by omega), if_pos (by omega)]
      congr 1
      all_goals omega
  · have hmem : a.hash ∉ getAttachments m.mimeTree := by simpa using hc
    have hrc : refCount a.hash (m :: ms) = refCount a.hash ms := by
      simp [refCount, List.filter_cons, hmem]
    have hms : magicSum a.hash (m :: ms) = magicSum a.hash ms := by
      simp [magicSum, List.filter_cons, hmem]
    rw [if_neg hc]
    simp only [attachmentAfter, hrc, hms]

theorem copyLoop_attachments (target source : Mailbox) (ra : String)
    (now : Int) (freshId : Nat → Nat) (msgs : List Message) :
    ∀ (i : Nat) (acc : CopyAcc),
      (copyLoop target source ra now freshId i msgs acc).db.attachments =
        acc.db.attachments.map (attachmentAfter msgs now) := by
  induction msgs with
  | nil =>
      intro i acc
      simp [copyLoop, attachmentAfter_nil_fun]
  | cons m ms ih =>
      intro i acc
      simp only [copyLoop, ih, copyStep]
      rw [applyAttachmentUpdate_eq_map]
      simp only [rewriteMessage]
      rw [List.map_map]
      exact List.map_congr_left fun a _ => attachmentAfter_cons_point m ms now a

/-! Batch-level lemmas: the fault-free transaction and the rows it leaves. -/

theorem markCopied_attachments (ids : List Nat) (db : DBState) :
    (markCopied ids db).attachments = db.attachments := rfl

theorem markCopied_mailboxes (ids : List Nat) (db : DBState) :
    (markCopied ids db).mailboxes = db.mailboxes := rfl

theorem writeUidNext_messages (mbid uidN : Nat) (db : DBState) :
    (writeUidNext mbid uidN db).messages = db.messages := rfl

theorem writeUidNext_attachments (mbid uidN : Nat) (db : DBState) :
    (writeUidNext mbid uidN db).attachments = db.attachments := rfl

theorem writeUidNext_mailboxes (mbid uidN : Nat) (db : DBState) :
    (writeUidNext mbid uidN db).mailboxes =
      db.mailboxes.map fun b =>
        if b.mbid == mbid then { b with uidNext := uidN } else b := rfl

theorem runCopyTx_none (target source : Mailbox) (ra : String) (now : Int)
    (freshId : Nat → Nat) (msgs : List Message) (db : DBState) :
    runCopyTx none target source ra now freshId msgs db =
      Except.ok (runCopyPure target source ra now freshId msgs db) := by
  unfold runCopyTx runCopyPure
  by_cases h : msgs.length > 0
  · simp [h, copyBatchE, copyLoopE_none]
  · simp [h]

theorem runCopyPure_sourceUid (target source : Mailbox) (ra : String)
    (now : Int) (freshId : Nat → Nat) (msgs : List Message) (db : DBState) :
    (runCopyPure target source ra now freshId msgs db).sourceUid =
      (msgs.map fun m => m.uid).reverse := by
  unfold runCopyPure
  by_cases h : msgs.length > 0
  · simp [h, copyLoop_sourceUid, initAcc]
  · have : msgs = [] := by
      cases msgs with
      | nil => rfl
      | cons x xs => simp at h
    simp [this, h, initAcc]

theorem runCopyPure_destinationUid (target source : Mailbox) (ra : String)
    (now : Int) (freshId : Nat → Nat) (msgs : List Message) (db : DBState) :
    (runCopyPure target source ra now freshId msgs db).destinationUid =
      (List.range' target.uidNext msgs.length).reverse := by
  unfold runCopyPure
  by_cases h : msgs.length > 0
  · simp [h, copyLoop_destinationUid, initAcc]
  · have : msgs = [] := by
      cases msgs with
      | nil => rfl
      | cons x xs => simp at h
    simp [this, h, initAcc]

theorem runCopyPure_copiedMessages (target source : Mailbox) (ra : String)
    (now : Int) (freshId : Nat → Nat) (msgs : List Message) (db : DBState) :
    (runCopyPure target source ra now freshId msgs db).copiedMessages =
      msgs.length := by
  unfold runCopyPure
  by_cases h : msgs.length > 0
  · simp [h, copyLoop_copiedMessages, initAcc]
  · have : msgs = [] := by
      cases msgs with
      | nil => rfl
      | cons x xs => simp at h
    simp [this, h, initAcc]

theorem runCopyPure_mailboxWrites (target source : Mailbox) (ra : String)
    (now : Int) (freshId : Nat → Nat) (msgs : List Message) (db : DBState) :
    (runCopyPure target source ra now freshId msgs db).mailboxWrites =
      if 0 < msgs.length then 1 else 0 := by
  unfold runCopyPure
  by_cases h : msgs.length > 0
  · simp [h, copyLoop_mailboxWrites, initAcc]
  · simp [h, initAcc]

theorem runCopyPure_attachments (target source : Mailbox) (ra : String)
    (now : Int) (freshId : Nat → Nat) (msgs : List Message) (db : DBState) :
    (runCopyPure target source ra now freshId msgs db).db.attachments =
      db.attachments.map (attachmentAfter msgs now) := by
  unfold runCopyPure
  by_cases h : msgs.length > 0
  · simp [h, writeUidNext_attachments, markCopied_attachments,
      copyLoop_attachments, initAcc]
  · have : msgs = [] := by
      cases msgs with
      | nil => rfl
      | cons x xs => simp at h
    simp [this, h, initAcc, attachmentAfter_nil_fun]

theorem runCopyPure_messages (target source : Mailbox) (ra : String)
    (now : Int) (freshId : Nat → Nat) (msgs : List Message) (db : DBState) :
    (runCopyPure target source ra now freshId msgs db).db.messages =
      (db.messages ++
        insertedRows target source ra now freshId 0 target.uidNext msgs).map
        fun m =>
          if (msgs.map fun m0 => m0.mid).contains m.mid then
            { m with copied := true }
          else m := by
  unfold runCopyPure
  by_cases h : msgs.length > 0
  · simp [h, writeUidNext_messages, markCopied, copyLoop_messages,
      copyLoop_sourceIds, initAcc]
  · have : msgs = [] := by
      cases msgs with
      | nil => rfl
      | cons x xs => simp at h
    simp [this, h, initAcc, insertedRows]

theorem runCopyPure_mailboxes (target source : Mailbox) (ra : String)
    (now : Int) (freshId : Nat → Nat) (msgs : List Message) (db : DBState) :
    (runCopyPure target source ra now freshId msgs db).db.mailboxes =
      if 0 < msgs.length then
        (writeUidNext target.mbid (target.uidNext + msgs.length) db).mailboxes
      else db.mailboxes := by
  unfold runCopyPure
  by_cases h : msgs.length > 0
  · simp [h, writeUidNext, markCopied_mailboxes, copyLoop_mailboxes,
      copyLoop_uidNext, initAcc]
  · simp [h, initAcc]

/-! Fault-injection lemmas: where the batch raises. -/

theorem copyLoopE_fail (target source : Mailbox) (ra : String) (now : Int)
    (freshId : Nat → Nat) (msgs : List Message) :
    ∀ (i k : Nat) (acc : CopyAcc), k < msgs.length →
      copyLoopE target source ra now freshId (some (i + k)) i msgs acc =
        Except.error () := by
  induction msgs with
  | nil => intro i k acc hk; simp at hk
  | cons m ms ih =>
      intro i k acc hk
      cases k with
      | zero => simp [copyLoopE]
      | succ k0 =>
          have hne : ¬ i + (k0 + 1) = i := by omega
          simp only [copyLoopE, Option.some.injEq, hne, if_false]
          rw [show i + (k0 + 1) = (i + 1) + k0 by omega]
          exact ih (i + 1) k0 _ (by simpa using hk)

theorem copyLoopE_skip (target source : Mailbox) (ra : String) (now : Int)
    (freshId : Nat → Nat) (msgs : List Message) :
    ∀ (i k : Nat) (acc : CopyAcc), msgs.length + i ≤ k →
      copyLoopE target source ra now freshId (some k) i msgs acc =
        Except.ok (copyLoop target source ra now freshId i msgs acc) := by
  induction msgs with
  | nil => intro i k acc hk; rfl
  | cons m ms ih =>
      intro i k acc hk
      have hne : ¬ k = i := by simp at hk; omega
      simp only [copyLoopE, copyLoop, Option.some.injEq, if_neg hne]
      exact ih (i + 1) k _ (by simp at hk ⊢; omega)

theorem copyBatchE_fail (target source : Mailbox) (ra : String) (now : Int)
    (freshId : Nat → Nat) (msgs : List Message) (db : DBState) (k : Nat)
    (hk : k < msgs.length + 2) :
    copyBatchE (some k) target source ra now freshId msgs db =
      Except.error () := by
  unfold copyBatchE
  by_cases h1 : k < msgs.length
  · rw [show (some k : Option Nat) = some (0 + k) by simp,
      copyLoopE_fail target source ra now freshId msgs 0 k _ h1]
  · rw [copyLoopE_skip target source ra now freshId msgs 0 k _ (by omega)]
    by_cases h2 : k = msgs.length
    · simp [h2]
    · have h3 : k = msgs.length + 1 := by omega
      simp [h3]

theorem runCopyTx_fail (target source : Mailbox) (ra : String) (now : Int)
    (freshId : Nat → Nat) (msgs : List Message) (db : DBState) (k : Nat)
    (hne : 0 < msgs.length) (hk : k < msgs.length + 2) :
    runCopyTx (some k) target source ra now freshId msgs db =
      Except.error () := by
  unfold runCopyTx
  simp only [if_pos hne]
  exact copyBatchE_fail target source ra now freshId msgs db k hk

/-! Inserted rows, expiry flag, lookups, sort order. -/

theorem insertedRows_exp (target source : Mailbox) (ra : String) (now : Int)
    (freshId : Nat → Nat) (msgs : List Message) :
    ∀ (i u : Nat) (x : Message),
      x ∈ insertedRows target source ra now freshId i u msgs →
        x.exp = expFlag target.retention := by
  induction msgs with
  | nil => intro i u x hx; simp [insertedRows] at hx
  | cons m ms ih =>
      intro i u x hx
      simp only [insertedRows, List.mem_cons] at hx
      cases hx with
      | inl h => subst h; rfl
      | inr h => exact ih (i + 1) (u + 1) x h

theorem expFlag_eq_one_iff (r : Option Int) :
    expFlag r = 1 ↔ ∃ v, r = some v ∧ v ≠ 0 := by
  cases r with
  | none => simp [expFlag]
  | some v =>
      by_cases hv : v = 0
      · subst hv; simp [expFlag]
      · simp [expFlag, hv]

theorem expFlag_zero_or_one (r : Option Int) :
    expFlag r = 0 ∨ expFlag r = 1 := by
  cases r with
  | none => left; rfl
  | some v =>
      by_cases hv : v = 0
      · subst hv; left; rfl
      · right; simp [expFlag, hv]

theorem find?_writeUidNext (mbid u : Nat) (l : List Mailbox) :
    ((l.map fun b =>
        if b.mbid == mbid then { b with uidNext := u } else b).find?
        fun b => b.mbid == mbid) =
      (l.find? fun b => b.mbid == mbid).map fun b => { b with uidNext := u } := by
  induction l with
  | nil => rfl
  | cons b bs ih =>
      by_cases hb : b.mbid == mbid
      · simp [List.find?, hb]
      · simp only [List.map_cons, if_neg hb]
        rw [List.find?_cons_of_neg _ (by simpa using hb),
          List.find?_cons_of_neg _ (by simpa using hb)]
        exact ih

theorem selectMessages_sorted (db : DBState) (mailboxId : Nat)
    (filter : List Nat) : List.Sorted uidLE (selectMessages db mailboxId filter) :=
  List.sorted_insertionSort uidLE _

theorem selectMessages_uid_sorted (db : DBState) (mailboxId : Nat)
    (filter : List Nat) :
    List.Sorted (fun a b => a ≤ b)
      ((selectMessages db mailboxId filter).map fun m => m.uid) :=
  List.Pairwise.map _ (fun _ _ h => h) (selectMessages_sorted db mailboxId filter)

theorem sorted_get_lt_of_val_lt {l : List Nat}
    (h : List.Sorted (fun a b => a ≤ b) l) (i j : Fin l.length)
    (hv : l.get i < l.get j) : (i : Nat) < (j : Nat) := by
  by_contra hij
  push_neg at hij
  rcases Nat.lt_or_ge (j : Nat) (i : Nat) with hji | hge
  · have := h.rel_get_of_lt (show j < i from hji)
    omega
  · have : i = j := Fin.ext (by omega)
    subst this
    omega

theorem selectMessages_nil_filter_mem (db : DBState) (mailboxId : Nat)
    (m : Message) :
    m ∈ selectMessages db mailboxId [] ↔
      m ∈ db.messages ∧ m.mailbox = mailboxId := by
  unfold selectMessages
  rw [(List.perm_insertionSort uidLE _).mem_iff, List.mem_filter]
  simp [messageMatches]

theorem selectMessages_length (db : DBState) (mailboxId : Nat)
    (filter : List Nat) :
    (selectMessages db mailboxId filter).length =
      (db.messages.filter (messageMatches mailboxId filter)).length :=
  List.length_insertionSort uidLE _

/-! Reductions of the orchestrator on the guarded paths. -/

theorem onCopyModel_ok (rF : Bool) (now : Int) (ra : String)
    (freshId : Nat → Nat) (mailboxId : Nat) (destinationPath : String)
    (filter : List Nat) (db : DBState) (mailbox target : Mailbox)
    (hm : findMailboxById db mailboxId = some mailbox)
    (ht : findMailboxByPath db destinationPath = some target) :
    onCopyModel false true rF none now ra freshId mailboxId destinationPath
        filter db =
      { result := Except.ok
          { uidValidity := target.uidValidity
            sourceUid := (runCopyPure target mailbox ra now freshId
              (selectMessages db mailbox.mbid filter) db).sourceUid
            destinationUid := (runCopyPure target mailbox ra now freshId
              (selectMessages db mailbox.mbid filter) db).destinationUid }
        events := [OEvent.lockAcquire, OEvent.rowsRead, OEvent.lockRelease] ++
          (if rF then [OEvent.logFatal] else [])
        db := (runCopyPure target mailbox ra now freshId
          (selectMessages db mailbox.mbid filter) db).db
        copiedMessages := (runCopyPure target mailbox ra now freshId
          (selectMessages db mailbox.mbid filter) db).copiedMessages
        mailboxWrites := (runCopyPure target mailbox ra now freshId
          (selectMessages db mailbox.mbid filter) db).mailboxWrites } := by
  unfold onCopyModel
  rw [hm, ht]
  simp [runCopyTx_none]

theorem onCopyModel_batchFail (rF : Bool) (k : Nat) (now : Int) (ra : String)
    (freshId : Nat → Nat) (mailboxId : Nat) (destinationPath : String)
    (filter : List Nat) (db : DBState) (mailbox target : Mailbox)
    (hm : findMailboxById db mailboxId = some mailbox)
    (ht : findMailboxByPath db destinationPath = some target)
    (hne : 0 < (selectMessages db mailbox.mbid filter).length)
    (hk : k < (selectMessages db mailbox.mbid filter).length + 2) :
    onCopyModel false true rF (some k) now ra freshId mailboxId
        destinationPath filter db =
      { result := Except.error CopyError.batchError
        events := [OEvent.lockAcquire, OEvent.rowsRead, OEvent.lockRelease] ++
          (if rF then [OEvent.logFatal] else [])
        db := db
        copiedMessages := 0
        mailboxWrites := 0 } := by
  unfold onCopyModel
  rw [hm, ht]
  simp [runCopyTx_fail target mailbox ra now freshId _ db k hne hk]

theorem onCopyModel_guarded_error (rF : Bool) (failAt : Option Nat)
    (now : Int) (ra : String) (freshId : Nat → Nat) (mailboxId : Nat)
    (destinationPath : String) (filter : List Nat) (db : DBState)
    (mailbox target : Mailbox) (e : Unit)
    (hm : findMailboxById db mailboxId = some mailbox)
    (ht : findMailboxByPath db destinationPath = some target)
    (htx : runCopyTx failAt target mailbox ra now freshId
      (selectMessages db mailbox.mbid filter) db = Except.error e) :
    onCopyModel false true rF failAt now ra freshId mailboxId
        destinationPath filter db =
      { result := Except.error CopyError.batchError
        events := [OEvent.lockAcquire, OEvent.rowsRead, OEvent.lockRelease] ++
          (if rF then [OEvent.logFatal] else [])
        db := db
        copiedMessages := 0
        mailboxWrites := 0 } := by
  unfold onCopyModel
  rw [hm, ht]
  simp [htx]

theorem onCopyModel_guarded_ok (rF : Bool) (failAt : Option Nat) (now : Int)
    (ra : String) (freshId : Nat → Nat) (mailboxId : Nat)
    (destinationPath : String) (filter : List Nat) (db : DBState)
    (mailbox target : Mailbox) (c : CopyAcc)
    (hm : findMailboxById db mailboxId = some mailbox)
    (ht : findMailboxByPath db destinationPath = some target)
    (htx : runCopyTx failAt target mailbox ra now freshId
      (selectMessages db mailbox.mbid filter) db = Except.ok c) :
    onCopyModel false true rF failAt now ra freshId mailboxId
        destinationPath filter db =
      { result := Except.ok
          { uidValidity := target.uidValidity
            sourceUid := c.sourceUid
            destinationUid := c.destinationUid }
        events := [OEvent.lockAcquire, OEvent.rowsRead, OEvent.lockRelease] ++
          (if rF then [OEvent.logFatal] else [])
        db := c.db
        copiedMessages := c.copiedMessages
        mailboxWrites := c.mailboxWrites } := by
  unfold onCopyModel
  rw [hm, ht]
  simp [htx]

/-! The claims. -/

/-- Claim C1, counterexample: copying the rows with source UIDs 5, 7, 9 into
a mailbox whose uidNext is 100 succeeds but returns
`sourceUid = [9, 7, 5]` and `destinationUid = [102, 101, 100]` — the arrays
are built by unshift while iterating in ascending order, so they are
descending, not the ascending `[5, 7, 9]` / `[100, 101, 102]` the claim
states. -/
theorem claimC1_counterexample :
    (onCopyModel false true false none 0 "ip" (fun i => 1000 + i) 1 "B" []
        dbWitness).result =
      Except.ok
        { uidValidity := 77
          sourceUid := [9, 7, 5]
          destinationUid := [102, 101, 100] } ∧
    ([9, 7, 5] : List Nat) ≠ [5, 7, 9] ∧
    ([102, 101, 100] : List Nat) ≠ [100, 101, 102] :=
  ⟨rfl, by decide, by decide⟩

/-- Claim C1, amended: for every successful COPY over a non-empty source
row set, the returned sourceUid array is the REVERSE of the ascending list
of touched source UIDs (hence descending), and the returned destinationUid
array is the parallel strictly decreasing block
`reverse [uidNext, uidNext+1, ...]`; position-wise the two arrays still
pair each source UID with its assigned destination UID. -/
theorem claimC1 (rF : Bool) (now : Int) (ra : String) (freshId : Nat → Nat)
    (mailboxId : Nat) (destinationPath : String) (filter : List Nat)
    (db : DBState) (mailbox target : Mailbox)
    (hm : findMailboxById db mailboxId = some mailbox)
    (ht : findMailboxByPath db destinationPath = some target)
    (_hne : selectMessages db mailbox.mbid filter ≠ []) :
    (onCopyModel false true rF none now ra freshId mailboxId destinationPath
        filter db).result =
      Except.ok
        { uidValidity := target.uidValidity
          sourceUid :=
            ((selectMessages db mailbox.mbid filter).map fun m => m.uid).reverse
          destinationUid :=
            (List.range' target.uidNext
              (selectMessages db mailbox.mbid filter).length).reverse } := by
  rw [onCopyModel_ok rF now ra freshId mailboxId destinationPath filter db
    mailbox target hm ht]
  rw [runCopyPure_sourceUid, runCopyPure_destinationUid]

/-- Claim C1 witness: the amended statement at the concrete scenario. -/
theorem claimC1_witness :
    (onCopyModel false true false none 0 "ip" (fun i => 1000 + i) 1 "B" []
        dbWitness).result =
      Except.ok
        { uidValidity := 77
          sourceUid := ((selectMessages dbWitness 1 []).map fun m => m.uid).reverse
          destinationUid :=
            (List.range' 100 (selectMessages dbWitness 1 []).length).reverse } :=
  claimC1 false 0 "ip" (fun i => 1000 + i) 1 "B" [] dbWitness mbA mbB rfl rfl
    (by decide)

/-- Claim C2 (confirmed): if the transactional batch fails at any step —
during any row insert, at the bulk copied-marker update, or at the uidNext
write — the whole storage state afterwards equals the pre-operation state:
no inserted rows, no attachment-counter changes, no copied markers, no
uidNext change, and the batch error is the reported result. -/
theorem claimC2 (rF : Bool) (now : Int) (ra : String) (freshId : Nat → Nat)
    (mailboxId : Nat) (destinationPath : String) (filter : List Nat)
    (db : DBState) (mailbox target : Mailbox) (k : Nat)
    (hm : findMailboxById db mailboxId = some mailbox)
    (ht : findMailboxByPath db destinationPath = some target)
    (hne : 0 < (selectMessages db mailbox.mbid filter).length)
    (hk : k < (selectMessages db mailbox.mbid filter).length + 2) :
    (onCopyModel false true rF (some k) now ra freshId mailboxId
      destinationPath filter db).db = db ∧
    (onCopyModel false true rF (some k) now ra freshId mailboxId
      destinationPath filter db).db.messages = db.messages ∧
    (onCopyModel false true rF (some k) now ra freshId mailboxId
      destinationPath filter db).db.attachments = db.attachments ∧
    (onCopyModel false true rF (some k) now ra freshId mailboxId
      destinationPath filter db).db.mailboxes = db.mailboxes ∧
    (onCopyModel false true rF (some k) now ra freshId mailboxId
      destinationPath filter db).result = Except.error CopyError.batchError := by
  rw [onCopyModel_batchFail rF k now ra freshId mailboxId destinationPath
    filter db mailbox target hm ht hne hk]
  exact ⟨rfl, rfl, rfl, rfl, rfl⟩

/-- Claim C2 witness: injected fault at the second row of the concrete
scenario leaves the storage exactly as it was. -/
theorem claimC2_witness :
    0 < (selectMessages dbWitness 1 []).length ∧
    (onCopyModel false true false (some 1) 0 "ip" (fun i => 1000 + i) 1 "B"
      [] dbWitness).db = dbWitness :=
  ⟨by decide,
    (claimC2 false 0 "ip" (fun i => 1000 + i) 1 "B" [] dbWitness mbA mbB 1
      rfl rfl (by decide) (by decide)).1⟩

/-- Claim C3 (confirmed): after a successful COPY the destination mailbox
row holds `uidNext_before + copiedMessages`, and the batch issues exactly
one `UPDATE Mailboxes` statement when any row was copied (zero when the
selection was empty, since the transaction is skipped entirely). -/
theorem claimC3 (rF : Bool) (now : Int) (ra : String) (freshId : Nat → Nat)
    (mailboxId : Nat) (destinationPath : String) (filter : List Nat)
    (db : DBState) (mailbox target : Mailbox)
    (hm : findMailboxById db mailboxId = some mailbox)
    (ht : findMailboxByPath db destinationPath = some target)
    (hrow : (db.mailboxes.find? fun b => b.mbid == target.mbid) = some target) :
    ((onCopyModel false true rF none now ra freshId mailboxId destinationPath
        filter db).db.mailboxes.find? fun b => b.mbid == target.mbid) =
      some { target with
        uidNext :=
          target.uidNext + (selectMessages db mailbox.mbid filter).length } ∧
    (onCopyModel false true rF none now ra freshId mailboxId destinationPath
        filter db).mailboxWrites =
      if 0 < (selectMessages db mailbox.mbid filter).length then 1 else 0 := by
  rw [onCopyModel_ok rF now ra freshId mailboxId destinationPath filter db
    mailbox target hm ht]
  constructor
  · show ((runCopyPure target mailbox ra now freshId
      (selectMessages db mailbox.mbid filter) db).db.mailboxes.find?
        fun b => b.mbid == target.mbid) = _
    rw [runCopyPure_mailboxes]
    by_cases h : 0 < (selectMessages db mailbox.mbid filter).length
    · rw [if_pos h, writeUidNext_mailboxes, find?_writeUidNext, hrow]
      rfl
    · rw [if_neg h]
      rw [hrow]
      have h0 : (selectMessages db mailbox.mbid filter).length = 0 := by omega
      rw [h0]
      rfl
  · show (runCopyPure target mailbox ra now freshId
      (selectMessages db mailbox.mbid filter) db).mailboxWrites = _
    rw [runCopyPure_mailboxWrites]

/-- Claim C3 witness: in the concrete scenario `uidNext` moves from 100 to
103 and exactly one mailbox write is issued. -/
theorem claimC3_witness :
    ((onCopyModel false true false none 0 "ip" (fun i => 1000 + i) 1 "B" []
        dbWitness).db.mailboxes.find? fun b => b.mbid == 2) =
      some
        { mbid := 2
          path := "B"
          uidNext := 103
          uidValidity := 77
          modifyIndex := 4
          retention := none
          specialUse := none } ∧
    (onCopyModel false true false none 0 "ip" (fun i => 1000 + i) 1 "B" []
      dbWitness).mailboxWrites = 1 := by
  have h := claimC3 false 0 "ip" (fun i => 1000 + i) 1 "B" [] dbWitness mbA
    mbB rfl rfl rfl
  exact ⟨h.1.trans (by decide), h.2.trans (by decide)⟩

/-- Claim C4 (confirmed): the per-message assignment of destination UIDs
preserves order.  In the returned parallel arrays, whenever the source UID
at position i is smaller than the source UID at position j, the destination
UID at position i is smaller than the destination UID at position j: the
source rows are read in ascending source-UID order and the counter
increments once per row. -/
theorem claimC4 (rF : Bool) (now : Int) (ra : String) (freshId : Nat → Nat)
    (mailboxId : Nat) (destinationPath : String) (filter : List Nat)
    (db : DBState) (mailbox target : Mailbox) (r : CopyResponse)
    (hm : findMailboxById db mailboxId = some mailbox)
    (ht : findMailboxByPath db destinationPath = some target)
    (hr : (onCopyModel false true rF none now ra freshId mailboxId
      destinationPath filter db).result = Except.ok r) :
    ∀ (i j : Nat) (hi : i < r.sourceUid.length) (hj : j < r.sourceUid.length)
      (hi2 : i < r.destinationUid.length) (hj2 : j < r.destinationUid.length),
      r.sourceUid.get ⟨i, hi⟩ < r.sourceUid.get ⟨j, hj⟩ →
        r.destinationUid.get ⟨i, hi2⟩ < r.destinationUid.get ⟨j, hj2⟩ := by
  rw [onCopyModel_ok rF now ra freshId mailboxId destinationPath filter db
    mailbox target hm ht] at hr
  rw [runCopyPure_sourceUid, runCopyPure_destinationUid] at hr
  dsimp only at hr
  rw [Except.ok.injEq] at hr
  subst hr
  dsimp only
  intro i j hi hj hi2 hj2 hlt
  simp only [List.length_reverse, List.length_map, List.length_range']
    at hi hj hi2 hj2
  have hpos : 0 < (selectMessages db mailbox.mbid filter).length := by omega
  simp only [List.get_eq_getElem] at hlt ⊢
  rw [List.getElem_reverse, List.getElem_reverse] at hlt
  rw [List.getElem_reverse, List.getElem_reverse, List.getElem_range',
    List.getElem_range']
  have hs := selectMessages_uid_sorted db mailbox.mbid filter
  have hL : ((selectMessages db mailbox.mbid filter).map
      fun m => m.uid).length = (selectMessages db mailbox.mbid filter).length :=
    List.length_map _ _
  have hidx := sorted_get_lt_of_val_lt hs
    ⟨((selectMessages db mailbox.mbid filter).map
      fun m => m.uid).length - 1 - i, by omega⟩
    ⟨((selectMessages db mailbox.mbid filter).map
      fun m => m.uid).length - 1 - j, by omega⟩
    (by simpa [List.get_eq_getElem] using hlt)
  simp only [List.length_range', List.length_map] at hidx ⊢
  omega

/-- Claim C4 witness: in the concrete scenario, position 1 of the returned
arrays carries source UID 7 against source UID 9 at position 0, and the
destination UIDs compare the same way (101 against 102). -/
theorem claimC4_witness :
    ([102, 101, 100] : List Nat).get ⟨1, by decide⟩ <
      ([102, 101, 100] : List Nat).get ⟨0, by decide⟩ :=
  claimC4 false 0 "ip" (fun i => 1000 + i) 1 "B" [] dbWitness mbA mbB
    { uidValidity := 77, sourceUid := [9, 7, 5],
      destinationUid := [102, 101, 100] }
    rfl rfl rfl 1 0 (by decide) (by decide) (by decide) (by decide) (by decide)

/-- Claim C5 (confirmed): after a successful COPY every attachment row's
counter equals its previous value plus the number of copied messages whose
body tree references that hash (one increment per referencing message row,
not per in-body occurrence); in the same transactional update the magic
value gains the referencing rows' contributions and the timestamp is
refreshed; rows referenced by no copied message are untouched. -/
theorem claimC5 (rF : Bool) (now : Int) (ra : String) (freshId : Nat → Nat)
    (mailboxId : Nat) (destinationPath : String) (filter : List Nat)
    (db : DBState) (mailbox target : Mailbox)
    (hm : findMailboxById db mailboxId = some mailbox)
    (ht : findMailboxByPath db destinationPath = some target) :
    ∀ (k : Nat) (hk : k < db.attachments.length)
      (hk2 : k < (onCopyModel false true rF none now ra freshId mailboxId
        destinationPath filter db).db.attachments.length),
      ((onCopyModel false true rF none now ra freshId mailboxId
          destinationPath filter db).db.attachments.get ⟨k, hk2⟩).counter =
        (db.attachments.get ⟨k, hk⟩).counter +
          (refCount (db.attachments.get ⟨k, hk⟩).hash
            (selectMessages db mailbox.mbid filter) : Int) ∧
      ((onCopyModel false true rF none now ra freshId mailboxId
          destinationPath filter db).db.attachments.get ⟨k, hk2⟩).magic =
        (db.attachments.get ⟨k, hk⟩).magic +
          magicSum (db.attachments.get ⟨k, hk⟩).hash
            (selectMessages db mailbox.mbid filter) ∧
      (0 < refCount (db.attachments.get ⟨k, hk⟩).hash
          (selectMessages db mailbox.mbid filter) →
        ((onCopyModel false true rF none now ra freshId mailboxId
          destinationPath filter db).db.attachments.get
            ⟨k, hk2⟩).counterUpdated = now) ∧
      (refCount (db.attachments.get ⟨k, hk⟩).hash
          (selectMessages db mailbox.mbid filter) = 0 →
        (onCopyModel false true rF none now ra freshId mailboxId
          destinationPath filter db).db.attachments.get ⟨k, hk2⟩ =
          db.attachments.get ⟨k, hk⟩) := by
  intro k hk hk2
  have hout : (onCopyModel false true rF none now ra freshId mailboxId
      destinationPath filter db).db.attachments =
      db.attachments.map
        (attachmentAfter (selectMessages db mailbox.mbid filter) now) := by
    rw [onCopyModel_ok rF now ra freshId mailboxId destinationPath filter db
      mailbox target hm ht]
    exact runCopyPure_attachments target mailbox ra now freshId _ db
  have hget : (onCopyModel false true rF none now ra freshId mailboxId
      destinationPath filter db).db.attachments.get ⟨k, hk2⟩ =
      attachmentAfter (selectMessages db mailbox.mbid filter) now
        (db.attachments.get ⟨k, hk⟩) := by
    simp only [List.get_eq_getElem]
    simp only [hout, List.getElem_map]
  rw [hget]
  by_cases hz : 0 < refCount (db.attachments.get ⟨k, hk⟩).hash
      (selectMessages db mailbox.mbid filter)
  · unfold attachmentAfter
    rw [if_pos hz]
    exact ⟨rfl, rfl, fun _ => rfl, fun h0 => by omega⟩
  · have h0 : refCount (db.attachments.get ⟨k, hk⟩).hash
        (selectMessages db mailbox.mbid filter) = 0 := by omega
    unfold attachmentAfter
    rw [if_neg hz]
    refine ⟨?_, ?_, fun hp => absurd hp hz, fun _ => rfl⟩
    · rw [h0]
      simp
    · rw [magicSum_eq_zero h0]
      simp

/-- Claim C5 witness: in the concrete scenario the attachment row with hash
42 is referenced by two copied rows (one of which references it twice in
its body tree), so its counter moves from 5 to exactly 7 and its magic from
100 to 104. -/
theorem claimC5_witness :
    ((onCopyModel false true false none 0 "ip" (fun i => 1000 + i) 1 "B" []
        dbWitness).db.attachments.get ⟨0, by decide⟩).counter = 7 ∧
    refCount 42 (selectMessages dbWitness 1 []) = 2 := by
  have h := (claimC5 false 0 "ip" (fun i => 1000 + i) 1 "B" [] dbWitness mbA
    mbB rfl rfl 0 (by decide) (by decide)).1
  exact ⟨h.trans (by decide), by decide⟩

/-- Claim C6 (confirmed): once the lock is acquired, exactly one release
attempt happens on every exit path, including when the transactional batch
throws; a failing release only adds a fatal-severity log event and never
changes the result (the result with a failing release equals the result
with a clean release); a batch error is still reported after the release
attempt. -/
theorem claimC6 (rF : Bool) (failAt : Option Nat) (now : Int) (ra : String)
    (freshId : Nat → Nat) (mailboxId : Nat) (destinationPath : String)
    (filter : List Nat) (db : DBState) (mailbox target : Mailbox)
    (hm : findMailboxById db mailboxId = some mailbox)
    (ht : findMailboxByPath db destinationPath = some target) :
    (onCopyModel false true rF failAt now ra freshId mailboxId
      destinationPath filter db).events.count OEvent.lockRelease = 1 ∧
    (onCopyModel false true true failAt now ra freshId mailboxId
        destinationPath filter db).result =
      (onCopyModel false true false failAt now ra freshId mailboxId
        destinationPath filter db).result ∧
    OEvent.logFatal ∈ (onCopyModel false true true failAt now ra freshId
      mailboxId destinationPath filter db).events ∧
    (∀ k, failAt = some k →
      k < (selectMessages db mailbox.mbid filter).length + 2 →
      0 < (selectMessages db mailbox.mbid filter).length →
      (onCopyModel false true rF failAt now ra freshId mailboxId
        destinationPath filter db).result =
        Except.error CopyError.batchError) := by
  cases htx : runCopyTx failAt target mailbox ra now freshId
      (selectMessages db mailbox.mbid filter) db with
  | error e =>
      refine ⟨?_, ?_, ?_, ?_⟩
      · rw [onCopyModel_guarded_error rF failAt now ra freshId mailboxId
          destinationPath filter db mailbox target e hm ht htx]
        dsimp only
        cases rF <;> decide
      · rw [onCopyModel_guarded_error true failAt now ra freshId mailboxId
          destinationPath filter db mailbox target e hm ht htx,
          onCopyModel_guarded_error false failAt now ra freshId mailboxId
          destinationPath filter db mailbox target e hm ht htx]
      · rw [onCopyModel_guarded_error true failAt now ra freshId mailboxId
          destinationPath filter db mailbox target e hm ht htx]
        dsimp only
        decide
      · intro k _ _ _
        rw [onCopyModel_guarded_error rF failAt now ra freshId mailboxId
          destinationPath filter db mailbox target e hm ht htx]
  | ok c =>
      refine ⟨?_, ?_, ?_, ?_⟩
      · rw [onCopyModel_guarded_ok rF failAt now ra freshId mailboxId
          destinationPath filter db mailbox target c hm ht htx]
        dsimp only
        cases rF <;> decide
      · rw [onCopyModel_guarded_ok true failAt now ra freshId mailboxId
          destinationPath filter db mailbox target c hm ht htx,
          onCopyModel_guarded_ok false failAt now ra freshId mailboxId
          destinationPath filter db mailbox target c hm ht htx]
      · rw [onCopyModel_guarded_ok true failAt now ra freshId mailboxId
          destinationPath filter db mailbox target c hm ht htx]
        dsimp only
        decide
      · intro k hk h1 h2
        subst hk
        rw [runCopyTx_fail target mailbox ra now freshId _ db k h2 h1] at htx
        exact absurd htx (by simp)

/-- Claim C6 witness: lock release is attempted exactly once in the
concrete scenario even with an injected release failure. -/
theorem claimC6_witness :
    (onCopyModel false true true none 0 "ip" (fun i => 1000 + i) 1 "B" []
      dbWitness).events.count OEvent.lockRelease = 1 :=
  (claimC6 true none 0 "ip" (fun i => 1000 + i) 1 "B" [] dbWitness mbA mbB
    rfl rfl).1

/-- Claim C7 (confirmed): a missing source mailbox produces the
NONEXISTENT failure kind, and a present source with a missing destination
path produces the distinct TRYCREATE failure kind. -/
theorem claimC7 (acquireOk rF : Bool) (failAt : Option Nat) (now : Int)
    (ra : String) (freshId : Nat → Nat) (mailboxId : Nat)
    (destinationPath : String) (filter : List Nat) (db : DBState) :
    (findMailboxById db mailboxId = none →
      (onCopyModel false acquireOk rF failAt now ra freshId mailboxId
        destinationPath filter db).result =
        Except.error CopyError.nonexistent) ∧
    (∀ mb, findMailboxById db mailboxId = some mb →
      findMailboxByPath db destinationPath = none →
      (onCopyModel false acquireOk rF failAt now ra freshId mailboxId
        destinationPath filter db).result =
        Except.error CopyError.tryCreate) := by
  constructor
  · intro h
    unfold onCopyModel
    rw [h]
    rfl
  · intro mb h1 h2
    unfold onCopyModel
    rw [h1, h2]
    rfl

/-- Claim C7 witness: both failure kinds at concrete states — no mailbox
rows at all versus only the source mailbox present. -/
theorem claimC7_witness :
    (onCopyModel false true false none 0 "ip" (fun _ => 0) 9 "B" []
      dbEmpty).result = Except.error CopyError.nonexistent ∧
    (onCopyModel false true false none 0 "ip" (fun _ => 0) 1 "B" []
      dbOnlySource).result = Except.error CopyError.tryCreate :=
  ⟨(claimC7 true false none 0 "ip" (fun _ => 0) 9 "B" [] dbEmpty).1 rfl,
    (claimC7 true false none 0 "ip" (fun _ => 0) 1 "B" [] dbOnlySource).2
      mbA rfl rfl⟩

/-- Claim C8, counterexample: with the destination retention set to the
negative number -1 — not a positive duration — the copied row still gets
its expiry flag set to 1, because the code tests `retention !== 0` rather
than `retention > 0`. -/
theorem claimC8_counterexample :
    (((onCopyModel false true false none 0 "ip" (fun i => 1000 + i) 1 "B" []
        dbNegRetention).db.messages.drop 1).get ⟨0, by decide⟩).exp = 1 ∧
    findMailboxByPath dbNegRetention "B" = some mbBneg ∧
    mbBneg.retention = some (-1) ∧
    ¬ (0 < (-1 : Int)) :=
  ⟨by decide, rfl, rfl, by decide⟩

/-- Claim C8, amended: on every copied row the expiry flag is set if and
only if the destination retention is a number different from zero; a
retention equal to the number zero and an absent retention both leave the
flag unset (a negative nonzero retention also sets it). -/
theorem claimC8 (rF : Bool) (now : Int) (ra : String) (freshId : Nat → Nat)
    (mailboxId : Nat) (destinationPath : String) (filter : List Nat)
    (db : DBState) (mailbox target : Mailbox)
    (hm : findMailboxById db mailboxId = some mailbox)
    (ht : findMailboxByPath db destinationPath = some target) :
    ∀ x, x ∈ ((onCopyModel false true rF none now ra freshId mailboxId
        destinationPath filter db).db.messages.drop db.messages.length) →
      (x.exp = 1 ↔ ∃ v, target.retention = some v ∧ v ≠ 0) ∧
      (target.retention = none → x.exp = 0) ∧
      (target.retention = some 0 → x.exp = 0) := by
  intro x hx
  rw [onCopyModel_ok rF now ra freshId mailboxId destinationPath filter db
    mailbox target hm ht] at hx
  dsimp only at hx
  rw [runCopyPure_messages, List.map_append,
    List.drop_left' (List.length_map _ _)] at hx
  obtain ⟨y, hy, rfl⟩ := List.mem_map.mp hx
  have hexp : (if ((selectMessages db mailbox.mbid filter).map
      fun m0 => m0.mid).contains y.mid then { y with copied := true }
      else y).exp = y.exp := by
    by_cases hc : ((selectMessages db mailbox.mbid filter).map
        fun m0 => m0.mid).contains y.mid
    · rw [if_pos hc]
    · rw [if_neg hc]
  have hy2 : y.exp = expFlag target.retention :=
    insertedRows_exp target mailbox ra now freshId _ 0 target.uidNext y hy
  refine ⟨?_, ?_, ?_⟩
  · rw [hexp, hy2]
    exact expFlag_eq_one_iff _
  · intro h
    rw [hexp, hy2, h]
    decide
  · intro h
    rw [hexp, hy2, h]
    decide

/-- Claim C8 witness: the amended statement at a positive retention — the
copied row's expiry flag is 1. -/
theorem claimC8_witness :
    (((onCopyModel false true false none 0 "ip" (fun i => 1000 + i) 1 "B" []
        dbPosRetention).db.messages.drop 1).get ⟨0, by decide⟩).exp = 1 := by
  have hx := List.get_mem ((onCopyModel false true false none 0 "ip"
    (fun i => 1000 + i) 1 "B" [] dbPosRetention).db.messages.drop 1) 0
    (by decide)
  exact ((claimC8 false 0 "ip" (fun i => 1000 + i) 1 "B" [] dbPosRetention
    mbA mbBpos rfl rfl _ hx).1).mpr ⟨86400, rfl, by decide⟩

/-- Claim C9 (confirmed): when the pre-flight quota check reports over
quota the invocation stops with the over-quota error before anything else:
no lock acquisition, no row read, no event at all, and the storage state is
untouched. -/
theorem claimC9 (acquireOk rF : Bool) (failAt : Option Nat) (now : Int)
    (ra : String) (freshId : Nat → Nat) (mailboxId : Nat)
    (destinationPath : String) (filter : List Nat) (db : DBState) :
    (onCopyModel true acquireOk rF failAt now ra freshId mailboxId
      destinationPath filter db).result = Except.error CopyError.overQuota ∧
    (onCopyModel true acquireOk rF failAt now ra freshId mailboxId
      destinationPath filter db).events = [] ∧
    (onCopyModel true acquireOk rF failAt now ra freshId mailboxId
      destinationPath filter db).events.count OEvent.lockAcquire = 0 ∧
    (onCopyModel true acquireOk rF failAt now ra freshId mailboxId
      destinationPath filter db).db = db :=
  ⟨rfl, rfl, rfl, rfl⟩

/-- Claim C10 (confirmed): an empty protocol-supplied UID filter adds no
UID condition, so the selection is exactly the source mailbox's rows and
the number of copied messages is the full mailbox count. -/
theorem claimC10 (rF : Bool) (now : Int) (ra : String) (freshId : Nat → Nat)
    (mailboxId : Nat) (destinationPath : String) (db : DBState)
    (mailbox target : Mailbox)
    (hm : findMailboxById db mailboxId = some mailbox)
    (ht : findMailboxByPath db destinationPath = some target) :
    (∀ m, m ∈ selectMessages db mailbox.mbid [] ↔
      m ∈ db.messages ∧ m.mailbox = mailbox.mbid) ∧
    (onCopyModel false true rF none now ra freshId mailboxId destinationPath
      [] db).copiedMessages =
      (db.messages.filter fun m => m.mailbox == mailbox.mbid).length := by
  constructor
  · intro m
    exact selectMessages_nil_filter_mem db mailbox.mbid m
  · rw [onCopyModel_ok rF now ra freshId mailboxId destinationPath [] db
      mailbox target hm ht]
    show (runCopyPure target mailbox ra now freshId
      (selectMessages db mailbox.mbid []) db).copiedMessages = _
    rw [runCopyPure_copiedMessages, selectMessages_length]
    congr 1
    apply List.filter_congr
    intro m _
    simp [messageMatches]

/-- Claim C10 witness: with no UID filter the concrete scenario copies all
three rows of the source mailbox. -/
theorem claimC10_witness :
    (onCopyModel false true false none 0 "ip" (fun i => 1000 + i) 1 "B" []
      dbWitness).copiedMessages =
      (dbWitness.messages.filter fun m => m.mailbox == 1).length :=
  (claimC10 false 0 "ip" (fun i => 1000 + i) 1 "B" dbWitness mbA mbB rfl
    rfl).2

end OnCopy
